import Mathlib

/-!
Shallow embedding of the gossh web SSH gateway (src/ssh.go and the Go server
embedded in src/build.sh), together with theorems settling the frozen claims
about its specification.

Strings in this development model Go strings (byte strings); bytes are
modelled as `Nat` values below 256.  External library calls (the SSH
transport, the fernet codec) are modelled as explicit outcome parameters,
since their code is not part of this repository; everything else is
translated directly from the source.
-/

namespace GoSSH

/-- Single-quote character, used by the upload/download shell commands. -/
def sqc : Char := Char.ofNat 39

/-- Single-quote as a one-character string. -/
def sq : String := String.singleton sqc

/-! ## WSMessage and UploadResponse (src/ssh.go lines 17-31) -/

/-- Control message frame decoded from a client WebSocket frame
(struct WSMessage in src/ssh.go). -/
structure WSMessage where
  type : String
  data : String
  cols : Int
  rows : Int
  filename : String
  size : Int
  deriving Repr, DecidableEq

/-- Upload acknowledgement frame (struct UploadResponse in src/ssh.go). -/
structure UploadResponse where
  type : String
  success : Bool
  path : String
  error : String
  deriving Repr, DecidableEq

/-! ## Events: observable actions of the embedded functions -/

/-- Observable remote-side / client-side actions performed by the embedded
functions, in program order.  `dial` is the SSH TCP dial; `startCommand` runs
a remote command on a fresh session channel. -/
inductive Event where
  | dial (addr : String)
  | newSession
  | startCommand (cmd : String)
  | writeStdin (bytes : List Nat)
  | closeStdin
  | stdinData (s : String)
  | windowChange (rows cols : Int)
  | requestPty (term : String) (rows cols : Int)
  | spawnUpload (msg : WSMessage)
  | wsText (s : String)
  deriving Repr, DecidableEq

/-! ## containsPort and host resolution (src/ssh.go lines 201-212, 56-59) -/

/-- Scan of the host characters from the end: a colon before any closing
bracket means a port is present (loop body of containsPort in src/ssh.go). -/
def containsPortAux : List Char → Bool
  | [] => false
  | c :: rest =>
    if c = ':' then true
    else if c = ']' then false
    else containsPortAux rest

/-- Translation of containsPort (src/ssh.go lines 201-212): iterate from the
last character towards the first; a colon means "has port", a closing bracket
(IPv6 address without port) means "no port". -/
def containsPort (host : String) : Bool :=
  containsPortAux host.data.reverse

/-- Host resolution used by all three SSH entry points (src/ssh.go lines
56-59, 323-326, 411-414): append ":22" when containsPort is false. -/
def resolveHost (host : String) : String :=
  if containsPort host then host else host ++ ":22"

/-! ## Authentication method list (src/ssh.go lines 41-54, 310-321, 398-409) -/

/-- Authentication method appended to the SSH client config. -/
inductive AuthMethod where
  | password (pw : String)
  | publicKey
  deriving Repr, DecidableEq

/-- Outcomes of the external calls made by the embedded functions: the
private-key parse, the dial, the session creation, the pipe setups, the
command start, the stream copy, and the exit status of the remote command.
Each embedded function is a function of its inputs and this world. -/
structure SSHWorld where
  parseKeyOk : Bool
  dialOk : Bool
  newSessionOk : Bool
  ptyOk : Bool
  shellOk : Bool
  stdinPipeOk : Bool
  stdoutPipeOk : Bool
  stderrPipeOk : Bool
  startOk : Bool
  copyOk : Bool
  waitExit : Nat
  deriving Repr, DecidableEq

/-- Translation of the auth-building block shared by handleSSHConnection,
uploadFileViaSSH and downloadFileViaSSH: password method appended first when
the password is non-empty, then the public-key method when key bytes are
present, failing when ssh.ParsePrivateKey fails (outcome `parseKeyOk`). -/
def buildAuth (password : String) (privateKey : List Nat) (parseKeyOk : Bool) :
    Except String (List AuthMethod) :=
  let auth : List AuthMethod :=
    if password ≠ "" then [AuthMethod.password password] else []
  if privateKey.length > 0 then
    if parseKeyOk then Except.ok (auth ++ [AuthMethod.publicKey])
    else Except.error "failed to parse private key"
  else Except.ok auth

/-! ## Base64 decoding (encoding/base64 StdEncoding, as used by the source) -/

/-- Value of a standard base64 alphabet character. -/
def b64Val (c : Char) : Option Nat :=
  if 'A' ≤ c ∧ c ≤ 'Z' then some (c.toNat - 65)
  else if 'a' ≤ c ∧ c ≤ 'z' then some (c.toNat - 97 + 26)
  else if '0' ≤ c ∧ c ≤ '9' then some (c.toNat - 48 + 52)
  else if c = '+' then some 62
  else if c = '/' then some 63
  else none

/-- Decode base64 characters four at a time, handling "=" padding in the
final quantum, as Go encoding/base64 StdEncoding does. -/
def base64DecodeChunks : List Char → Option (List Nat)
  | [] => some []
  | a :: b :: c :: d :: rest =>
    match b64Val a, b64Val b with
    | some va, some vb =>
      if c = '=' ∧ d = '=' ∧ rest = [] then
        some [va * 4 + vb / 16]
      else if d = '=' ∧ rest = [] then
        match b64Val c with
        | some vc => some [va * 4 + vb / 16, (vb % 16) * 16 + vc / 4]
        | none => none
      else
        match b64Val c, b64Val d with
        | some vc, some vd =>
          match base64DecodeChunks rest with
          | some tail =>
            some ((va * 4 + vb / 16) :: ((vb % 16) * 16 + vc / 4) ::
                  ((vc % 4) * 64 + vd) :: tail)
          | none => none
        | _, _ => none
    | _, _ => none
  | _ => none

/-- Model of base64.StdEncoding.DecodeString: Go ignores carriage returns and
newlines, decodes four-character quanta, and rejects other malformed input. -/
def base64Decode (s : String) : Option (List Nat) :=
  base64DecodeChunks
    (s.data.filter (fun c => c ≠ Char.ofNat 13 ∧ c ≠ Char.ofNat 10))

/-! ## io.Copy chunking -/

/-- Model of io.Copy from a streaming source: the payload reaches the
destination in successive chunks of at most 32768 bytes (the io.Copy buffer
size), never materialised whole in memory. -/
def chunked32k : List Nat → List (List Nat)
  | [] => []
  | x :: xs => ((x :: xs).take 32768) :: chunked32k ((x :: xs).drop 32768)
termination_by l => l.length
decreasing_by simp [List.length_drop]; omega

/-! ## Control message dispatch (src/ssh.go lines 156-188) -/

/-- Dispatch of one decoded control message by the control worker
(switch msg.Type in src/ssh.go lines 171-186): "input" writes the data bytes
to the remote stdin, "resize" issues one WindowChange carrying msg.Rows and
msg.Cols exactly, "upload" spawns a detached handleFileUpload task, and any
other type is ignored. -/
def dispatchMessage (msg : WSMessage) : List Event :=
  if msg.type = "input" then [Event.stdinData msg.data]
  else if msg.type = "resize" then [Event.windowChange msg.rows msg.cols]
  else if msg.type = "upload" then [Event.spawnUpload msg]
  else []

/-- Control worker loop: each client frame either fails JSON decoding
(dropped, non-fatal, modelled as `none`) or dispatches as a ControlMessage. -/
def controlWorker (frames : List (Option WSMessage)) : List Event :=
  (frames.map (fun f =>
    match f with
    | none => []
    | some m => dispatchMessage m)).flatten

/-! ## handleSSHConnection (src/ssh.go lines 33-199), as an event trace -/

/-- Trace of observable actions of handleSSHConnection: build the auth list
(failing before any dial when the private key does not parse), resolve the
host, dial, create the session, request the PTY with initial geometry 40x80,
set up pipes, start the shell, then run the control worker over the client
frames.  The stdout/stderr forwarding goroutines write to the client channel
and are modelled separately (see the NetChunk model below). -/
def handleSSHConnection (w : SSHWorld) (host _user password : String)
    (privateKey : List Nat) (frames : List (Option WSMessage)) : List Event :=
  match buildAuth password privateKey w.parseKeyOk with
  | Except.error _ => [Event.wsText "Error: Failed to parse private key"]
  | Except.ok _ =>
    let addr := resolveHost host
    if ¬ w.dialOk then
      [Event.dial addr, Event.wsText "Error: Failed to connect"]
    else if ¬ w.newSessionOk then
      [Event.dial addr, Event.newSession, Event.wsText "Error: Failed to create session"]
    else if ¬ w.ptyOk then
      [Event.dial addr, Event.newSession, Event.requestPty "xterm-256color" 40 80,
       Event.wsText "Error: Failed to request PTY"]
    else if ¬ (w.stdinPipeOk ∧ w.stdoutPipeOk ∧ w.stderrPipeOk) then
      [Event.dial addr, Event.newSession, Event.requestPty "xterm-256color" 40 80]
    else if ¬ w.shellOk then
      [Event.dial addr, Event.newSession, Event.requestPty "xterm-256color" 40 80,
       Event.wsText "Error: Failed to start shell"]
    else
      [Event.dial addr, Event.newSession, Event.requestPty "xterm-256color" 40 80] ++
        controlWorker frames

/-! ## File transfer (src/ssh.go lines 214-467) -/

/-- Staging path for an upload (src/ssh.go lines 228 and 336):
"/tmp/" with the filename appended verbatim. -/
def remotePathFor (filename : String) : String := "/tmp/" ++ filename

/-- Remote command started for an upload (src/ssh.go lines 259 and 358):
cat with output redirected to the staging path wrapped in single quotes. -/
def uploadCommand (filename : String) : String :=
  "cat > " ++ sq ++ remotePathFor filename ++ sq

/-- Remote command started for a download (src/ssh.go line 450). -/
def downloadCommand (remotePath : String) : String :=
  "cat " ++ sq ++ remotePath ++ sq

/-- Translation of handleFileUpload (src/ssh.go lines 214-288): decode the
base64 payload, open a command channel, start the upload command, write the
decoded bytes in one write, close stdin, wait for the exit status, and build
the acknowledgement frame. -/
def handleFileUpload (w : SSHWorld) (msg : WSMessage) :
    UploadResponse × List Event :=
  match base64Decode msg.data with
  | none =>
    (⟨"upload_response", false, "", "Failed to decode file data"⟩, [])
  | some fileData =>
    let remotePath := remotePathFor msg.filename
    if ¬ w.newSessionOk then
      (⟨"upload_response", false, "", "Failed to create upload session"⟩,
       [Event.newSession])
    else if ¬ w.stdinPipeOk then
      (⟨"upload_response", false, "", "Failed to get stdin pipe"⟩,
       [Event.newSession])
    else if ¬ w.stderrPipeOk then
      (⟨"upload_response", false, "", "Failed to get stderr pipe"⟩,
       [Event.newSession])
    else if ¬ w.startOk then
      (⟨"upload_response", false, "", "Failed to start upload command"⟩,
       [Event.newSession, Event.startCommand (uploadCommand msg.filename)])
    else if ¬ w.copyOk then
      (⟨"upload_response", false, "", "Failed to write file data"⟩,
       [Event.newSession, Event.startCommand (uploadCommand msg.filename),
        Event.writeStdin fileData])
    else if w.waitExit ≠ 0 then
      (⟨"upload_response", false, "", "Failed to upload file"⟩,
       [Event.newSession, Event.startCommand (uploadCommand msg.filename),
        Event.writeStdin fileData, Event.closeStdin])
    else
      (⟨"upload_response", true, remotePath, ""⟩,
       [Event.newSession, Event.startCommand (uploadCommand msg.filename),
        Event.writeStdin fileData, Event.closeStdin])

/-- Translation of uploadFileViaSSH (src/ssh.go lines 302-375), taking the
streamed HTTP request body as a byte list: auth list, dial, command channel,
upload command, incremental io.Copy of the body (chunked writes), close,
wait, and the staging path on success. -/
def uploadFileViaSSH (w : SSHWorld) (fileBytes : List Nat)
    (filename host _user password : String) (privateKey : List Nat) :
    Except String String × List Event :=
  match buildAuth password privateKey w.parseKeyOk with
  | Except.error _ => (Except.error "failed to parse private key", [])
  | Except.ok _ =>
    let addr := resolveHost host
    if ¬ w.dialOk then
      (Except.error "failed to connect to SSH server", [Event.dial addr])
    else
      let remotePath := remotePathFor filename
      if ¬ w.newSessionOk then
        (Except.error "failed to create upload session",
         [Event.dial addr, Event.newSession])
      else if ¬ w.stdinPipeOk then
        (Except.error "failed to get stdin pipe", [Event.dial addr, Event.newSession])
      else if ¬ w.stderrPipeOk then
        (Except.error "failed to get stderr pipe", [Event.dial addr, Event.newSession])
      else if ¬ w.startOk then
        (Except.error "failed to start upload command",
         [Event.dial addr, Event.newSession,
          Event.startCommand (uploadCommand filename)])
      else if ¬ w.copyOk then
        (Except.error "failed to write file data",
         [Event.dial addr, Event.newSession,
          Event.startCommand (uploadCommand filename)])
      else if w.waitExit ≠ 0 then
        (Except.error "failed to upload file",
         [Event.dial addr, Event.newSession,
          Event.startCommand (uploadCommand filename)] ++
           (chunked32k fileBytes).map Event.writeStdin ++ [Event.closeStdin])
      else
        (Except.ok remotePath,
         [Event.dial addr, Event.newSession,
          Event.startCommand (uploadCommand filename)] ++
           (chunked32k fileBytes).map Event.writeStdin ++ [Event.closeStdin])

/-- Allow-listed download directories (src/ssh.go line 379 and the same
literal list in downloadHandler in src/build.sh). -/
def allowedPaths : List String := ["/home/", "/opt/", "/tmp/"]

/-- Leading-segment compare of two character lists, the first argument being
the candidate leading segment (the manual slice compare
remotePath[:len(p)] == p in src/ssh.go lines 381-385, and
strings.HasPrefix in downloadHandler). -/
def leadsWith : List Char → List Char → Bool
  | [], _ => true
  | _ :: _, [] => false
  | p :: ps, c :: cs => decide (p = c) && leadsWith ps cs

/-- Prefix test applied to a download path: true exactly when the path starts
with one of the three allow-listed directory strings (the loop in
downloadFileViaSSH lines 380-386 and in downloadHandler). -/
def pathIsAllowed (remotePath : String) : Bool :=
  allowedPaths.any (fun p => leadsWith p.data remotePath.data)

/-- Access-denied message of downloadFileViaSSH (src/ssh.go line 388). -/
def accessDeniedMsg : String :=
  "access denied: downloads are only allowed from /home, /opt, and /tmp directories"

/-- Translation of Go filepath.Base: empty path gives ".", trailing slashes
are stripped, the last path element is returned, and an all-slash path gives
"/". -/
def filepathBase (path : String) : String :=
  if path = "" then "."
  else
    let cs := (path.data.reverse.dropWhile (fun c => c = '/')).reverse
    if cs = [] then "/"
    else String.mk (cs.reverse.takeWhile (fun c => c ≠ '/')).reverse

/-- Translation of downloadFileViaSSH (src/ssh.go lines 377-467): the path
check runs first and rejects with the access-denied error before any other
activity; then auth list, dial, command channel, response headers, the
download command, the streaming copy into the HTTP response, and the base
filename on success. -/
def downloadFileViaSSH (w : SSHWorld) (remotePath host _user password : String)
    (privateKey : List Nat) : Except String String × List Event :=
  if ¬ pathIsAllowed remotePath then
    (Except.error accessDeniedMsg, [])
  else
    match buildAuth password privateKey w.parseKeyOk with
    | Except.error _ => (Except.error "failed to parse private key", [])
    | Except.ok _ =>
      let addr := resolveHost host
      if ¬ w.dialOk then
        (Except.error "failed to connect to SSH server", [Event.dial addr])
      else if ¬ w.newSessionOk then
        (Except.error "failed to create download session",
         [Event.dial addr, Event.newSession])
      else if ¬ w.stdoutPipeOk then
        (Except.error "failed to get stdout pipe", [Event.dial addr, Event.newSession])
      else if ¬ w.stderrPipeOk then
        (Except.error "failed to get stderr pipe", [Event.dial addr, Event.newSession])
      else if ¬ w.startOk then
        (Except.error "failed to start download command",
         [Event.dial addr, Event.newSession,
          Event.startCommand (downloadCommand remotePath)])
      else if ¬ w.copyOk then
        (Except.error "failed to stream file data",
         [Event.dial addr, Event.newSession,
          Event.startCommand (downloadCommand remotePath)])
      else if w.waitExit ≠ 0 then
        (Except.error "failed to download file",
         [Event.dial addr, Event.newSession,
          Event.startCommand (downloadCommand remotePath)])
      else
        (Except.ok (filepathBase remotePath),
         [Event.dial addr, Event.newSession,
          Event.startCommand (downloadCommand remotePath)])

/-! ## net/url query parsing, as used by decryptAccess in src/build.sh -/

/-- Value of a hexadecimal digit. -/
def hexVal (c : Char) : Option Nat :=
  if '0' ≤ c ∧ c ≤ '9' then some (c.toNat - 48)
  else if 'a' ≤ c ∧ c ≤ 'f' then some (c.toNat - 97 + 10)
  else if 'A' ≤ c ∧ c ≤ 'F' then some (c.toNat - 65 + 10)
  else none

/-- Model of url.QueryUnescape: a percent sign must be followed by two hex
digits and decodes to that byte, a plus decodes to a space, anything else is
literal; malformed escapes are errors. -/
def unescapeAux : List Char → Option (List Char)
  | [] => some []
  | c :: rest =>
    if c = '%' then
      match rest with
      | a :: b :: rest2 =>
        match hexVal a, hexVal b with
        | some ha, some hb =>
          (unescapeAux rest2).map (fun t => Char.ofNat (ha * 16 + hb) :: t)
        | _, _ => none
      | _ => none
    else if c = '+' then (unescapeAux rest).map (fun t => ' ' :: t)
    else (unescapeAux rest).map (fun t => c :: t)

/-- String wrapper for unescapeAux. -/
def queryUnescape (s : String) : Option String :=
  (unescapeAux s.data).map String.mk

/-- Split a character list at the first occurrence of a separator
(strings.Cut); when the separator is absent the second part is empty. -/
def cutAt (sep : Char) : List Char → List Char × List Char
  | [] => ([], [])
  | c :: rest =>
    if c = sep then ([], rest)
    else
      let p := cutAt sep rest
      (c :: p.1, p.2)

/-- Model of url.ParseQuery over the list of ampersand-separated segments: a
segment containing a semicolon or a malformed escape is an error (Go keeps
parsing but decryptAccess only looks at whether the error is nil, so aborting
at the first bad segment is observationally the same); empty segments are
skipped; each segment is cut at the first equals sign and both halves are
unescaped. -/
def parseQueryList : List String → Except String (List (String × String))
  | [] => Except.ok []
  | seg :: rest =>
    if seg.data.contains ';' then
      Except.error "invalid semicolon separator in query"
    else if seg = "" then parseQueryList rest
    else
      let p := cutAt '=' seg.data
      match queryUnescape (String.mk p.1), queryUnescape (String.mk p.2) with
      | some key, some value =>
        (parseQueryList rest).map (fun t => (key, value) :: t)
      | _, _ => Except.error "invalid URL escape"

/-- Split a character list on ampersands; the accumulator holds the current
segment reversed.  This is the repeated strings.Cut loop of Go parseQuery. -/
def splitOnAmp (cur : List Char) : List Char → List (List Char)
  | [] => [cur.reverse]
  | c :: rest =>
    if c = '&' then cur.reverse :: splitOnAmp [] rest
    else splitOnAmp (c :: cur) rest

/-- Model of url.ParseQuery (the repeated strings.Cut on the ampersand is the
same as splitting on it). -/
def parseQuery (query : String) : Except String (List (String × String)) :=
  parseQueryList ((splitOnAmp [] query.data).map String.mk)

/-- First value recorded for a key, or the empty string (url.Values.Get). -/
def valuesGet (vs : List (String × String)) (k : String) : String :=
  match vs.find? (fun p => p.1 = k) with
  | some p => p.2
  | none => ""

/-! ## Access token codec (decryptAccess, src/build.sh lines 277-313) -/

/-- Credential bundle (struct SSHCredentials in src/build.sh lines 58-63). -/
structure SSHCredentials where
  host : String
  user : String
  password : String
  privateKey : String
  deriving Repr, DecidableEq

/-- Translation of decryptAccess (src/build.sh lines 277-313).  The fernet
verification (fernet.VerifyAndDecrypt under the server-held key, external
library) is the function argument `verify`: it yields the recovered plaintext
or `none`; `keyConfigured` and `keyValid` are the outcomes of the two key
checks.  On success the flat key-value payload is base64-decoded, parsed as a
query string, and only the keys "username", "hostname" and "privatekey" are
extracted; the Password field keeps its zero value. -/
def decryptAccess (verify : String → Option String)
    (keyConfigured keyValid : Bool) (encrypted : String) :
    Except String SSHCredentials :=
  if keyConfigured = false then Except.error "fernet key not configured"
  else if keyValid = false then Except.error "invalid fernet key"
  else
    match verify encrypted with
    | none => Except.error "failed to decrypt access token"
    | some token64 =>
      match base64Decode token64 with
      | none => Except.error "illegal base64 data"
      | some tokenBytes =>
        match parseQuery (String.mk (tokenBytes.map Char.ofNat)) with
        | Except.error e => Except.error e
        | Except.ok values =>
          Except.ok
            { host := valuesGet values "hostname"
              user := valuesGet values "username"
              password := ""
              privateKey := valuesGet values "privatekey" }

/-! ## HTTP handlers (src/build.sh) -/

/-- Client-visible outcome of an HTTP handler. -/
inductive HttpResponse where
  | httpError (msg : String) (code : Nat)
  | page (template : String) (creds : SSHCredentials)
  | fileAttachment (filename : String)
  deriving Repr, DecidableEq

/-- Translation of indexHandler (src/build.sh lines 128-157): with a
non-empty access parameter, every decryptAccess failure produces the same
"Invalid access token" 400 response (the detailed reason goes to the log
only), and success renders the terminal page with the decoded bundle;
without the parameter the form page is rendered. -/
def indexHandler (verify : String → Option String)
    (keyConfigured keyValid : Bool) (accessParam : String) : HttpResponse :=
  if accessParam ≠ "" then
    match decryptAccess verify keyConfigured keyValid accessParam with
    | Except.error _ => HttpResponse.httpError "Invalid access token" 400
    | Except.ok creds => HttpResponse.page "terminal.html" creds
  else
    HttpResponse.page "index.html" ⟨"", "", "", ""⟩

/-- Access-denied message of downloadHandler (src/build.sh line 250). -/
def handlerAccessDeniedMsg : String :=
  "Access denied: Downloads are only allowed from /home, /opt, and /tmp directories"

/-- Translation of downloadHandler (src/build.sh lines 227-275): missing
required query parameters are rejected first, then the allow-list check runs
before any key decoding or connection work, then the private key is decoded
and downloadFileViaSSH streams the file. -/
def downloadHandler (w : SSHWorld)
    (host user password privateKeyB64 remotePath : String) :
    HttpResponse × List Event :=
  if host = "" ∨ user = "" ∨ remotePath = "" then
    (HttpResponse.httpError "Missing required parameters" 400, [])
  else if ¬ pathIsAllowed remotePath then
    (HttpResponse.httpError handlerAccessDeniedMsg 403, [])
  else
    match (if privateKeyB64 ≠ "" then base64Decode privateKeyB64 else some []) with
    | none => (HttpResponse.httpError "Invalid private key encoding" 400, [])
    | some privateKey =>
      match downloadFileViaSSH w remotePath host user password privateKey with
      | (Except.error e, evs) =>
        (HttpResponse.httpError ("Download failed: " ++ e) 500, evs)
      | (Except.ok filename, evs) => (HttpResponse.fileAttachment filename, evs)

/-! ## WebSocket message size (src/build.sh lines 46-53, gorilla/websocket) -/

/-- Read buffer size configured on the upgrader (src/build.sh line 48); this
is an I/O buffer size, not a message-size cap. -/
def upgraderReadBufferSize : Nat := 1024

/-- Read limit in force on the session WebSocket: gorilla/websocket caps
incoming message size only when SetReadLimit is called, and the source never
calls it, so no limit is configured. -/
def wsReadLimit : Option Nat := none

/-- Whether a client message of the given size is accepted (read fully into
memory) by conn.ReadMessage under the configured read limit. -/
def wsAcceptsMessage (size : Nat) : Bool :=
  match wsReadLimit with
  | none => true
  | some l => decide (size ≤ l)

/-! ## Concurrent client-channel writes (src/ssh.go lines 122-153, 290-300) -/

/-- Network-level step of a WebSocket frame write: the frame header and the
frame payload reach the shared connection as separate writes. -/
inductive NetChunk where
  | frameHeader (worker : Nat) (len : Nat)
  | framePayload (worker : Nat) (bytes : List Nat)
  deriving Repr, DecidableEq

/-- Steps performed on the shared connection by one WriteMessage call by the
given worker. -/
def writeMessageSteps (worker : Nat) (bytes : List Nat) : List NetChunk :=
  [NetChunk.frameHeader worker bytes.length, NetChunk.framePayload worker bytes]

/-- All interleavings of two step sequences. -/
def interleavings {α : Type} : List α → List α → List (List α)
  | [], ys => [ys]
  | x :: xs, [] => [x :: xs]
  | x :: xs, y :: ys =>
    (interleavings xs (y :: ys)).map (fun t => x :: t) ++
      (interleavings (x :: xs) ys).map (fun t => y :: t)
termination_by a b => a.length + b.length
decreasing_by all_goals simp +arith

/-- Whether the stdout worker, the stderr worker and sendUploadResponse
serialize their wsConn.WriteMessage calls: in src/ssh.go (lines 122-153 and
290-300) they all write to the shared connection directly, with no mutex,
channel, or owning writer goroutine, so no serialization is in force. -/
def clientWriterSerialized : Bool := false

/-- Client-observable network traces produced when two workers each perform
one WriteMessage concurrently: serialized writers produce one whole frame
after the other; unserialized writers can produce any interleaving of their
steps. -/
def possibleNetTraces (a b : List NetChunk) : List (List NetChunk) :=
  if clientWriterSerialized then [a ++ b, b ++ a] else interleavings a b

/-- Framing atomicity of a network trace: every frame header is immediately
followed by the same worker's frame payload, so no frame is fragmented by or
interleaved with another worker's write. -/
def framesIntact : List NetChunk → Bool
  | [] => true
  | NetChunk.frameHeader w _ :: NetChunk.framePayload w2 _ :: rest =>
    decide (w = w2) && framesIntact rest
  | _ => false

/-! ## Shell interpretation of the upload command target -/

/-- Word read by a POSIX shell with single-quote handling: the Boolean flag
says whether the scan is inside a quoted span (where every character is
literal); outside quotes a blank ends the word and a single quote opens a
span; an unterminated quote fails the parse. -/
def shellWordAux : Bool → List Char → Option (List Char)
  | false, [] => some []
  | false, c :: rest =>
    if c = sqc then shellWordAux true rest
    else if c = ' ' then some []
    else (shellWordAux false rest).map (fun t => c :: t)
  | true, [] => none
  | true, c :: rest =>
    if c = sqc then shellWordAux false rest
    else (shellWordAux true rest).map (fun t => c :: t)

/-- Parse one shell word from the start of a string. -/
def shellWord (s : String) : Option String :=
  (shellWordAux false s.data).map String.mk

/-- Path the remote shell actually redirects to when given an upload command:
the word following "cat > ", read with single-quote semantics. -/
def redirectTarget (cmd : String) : Option String :=
  match cmd.data with
  | 'c' :: 'a' :: 't' :: ' ' :: '>' :: ' ' :: rest =>
    (shellWordAux false rest).map String.mk
  | _ => none

/-! ## Spec-side definition of "carries a port" -/

/-- Bracketed IPv6 literal form: opening bracket first, closing bracket
last. -/
def isBracketed (cs : List Char) : Bool :=
  cs.head? = some '[' && cs.getLast? = some ']' && decide (cs.length ≥ 2)

/-- Characters after the last colon. -/
def afterLastColon (cs : List Char) : List Char :=
  (cs.reverse.takeWhile (fun c => c ≠ ':')).reverse

/-- Characters before the last colon. -/
def beforeLastColon (cs : List Char) : List Char :=
  ((cs.reverse.dropWhile (fun c => c ≠ ':')).drop 1).reverse

/-- Definition following the spec words "host (optionally host:port, default
port 22 when absent)": a host string carries a port exactly when it has the
host:port form — a non-empty port (free of colons and closing brackets) after
the last colon, preceded by a host part that is either colon-free or a
bracketed IPv6 literal.  Written from the spec only, to compare the spec's
notion of "has a port" against the code's containsPort heuristic. -/
def specHasHostPort (s : String) : Bool :=
  let cs := s.data
  cs.contains ':' &&
    (let port := afterLastColon cs
     let h := beforeLastColon cs
     decide (port ≠ []) && !port.contains ']' &&
       (!h.contains ':' || isBracketed h))

/-- Concrete world where every external call succeeds and the remote command
exits with status zero. -/
def wOk : SSHWorld :=
  ⟨true, true, true, true, true, true, true, true, true, true, 0⟩

/-! ## Helper lemmas -/

/-- Scanning a block of characters free of colons and closing brackets,
followed by a colon, reports a port. -/
theorem containsPortAux_colon_block (l rest : List Char)
    (h : ∀ c ∈ l, c ≠ ':' ∧ c ≠ ']') :
    containsPortAux (l ++ ':' :: rest) = true := by
  induction l with
  | nil => simp [containsPortAux]
  | cons c tl ih =>
    have hc := h c (by simp)
    simp only [List.cons_append, containsPortAux]
    rw [if_neg hc.1, if_neg hc.2]
    exact ih (fun x hx => h x (by simp [hx]))

/-- Scanning characters free of colons never reports a port. -/
theorem containsPortAux_no_colon (l : List Char) (h : ∀ c ∈ l, c ≠ ':') :
    containsPortAux l = false := by
  induction l with
  | nil => rfl
  | cons c tl ih =>
    have hc := h c (by simp)
    simp only [containsPortAux]
    rw [if_neg hc]
    by_cases hb : c = ']'
    · simp [hb]
    · rw [if_neg hb]
      exact ih (fun x hx => h x (by simp [hx]))

/-- Head of a non-empty dropWhile residue fails the predicate. -/
theorem dropWhile_head_false {α : Type} (p : α → Bool) :
    ∀ (l : List α) (d : α) (tl : List α), l.dropWhile p = d :: tl → p d = false := by
  intro l
  induction l with
  | nil => intro d tl h; simp [List.dropWhile] at h
  | cons c rest ih =>
    intro d tl h
    by_cases hp : p c = true
    · rw [List.dropWhile_cons_of_pos hp] at h
      exact ih d tl h
    · rw [List.dropWhile_cons_of_neg hp] at h
      cases h
      exact Bool.not_eq_true _ ▸ hp

/-- Consuming a quote-free span inside a quoted region stops exactly at the
closing quote. -/
theorem shellWordAux_quoted_span (m : List Char) (h : sqc ∉ m) :
    shellWordAux true (m ++ [sqc]) = some m := by
  induction m with
  | nil => simp [shellWordAux]
  | cons c tl ih =>
    have hc : c ≠ sqc := fun he => h (by simp [he])
    simp only [List.cons_append, shellWordAux, List.append_eq]
    rw [if_neg hc, ih (fun hm => h (by simp [hm]))]
    rfl

/-- Word formed by one fully quoted span at the end of the input. -/
theorem shellWordAux_single_quoted (m : List Char) (h : sqc ∉ m) :
    shellWordAux false (sqc :: (m ++ [sqc])) = some m := by
  have h2 := shellWordAux_quoted_span m h
  simp [shellWordAux, h2]

/-- Chunked copy reassembles to exactly the source bytes. -/
theorem chunked32k_flatten_le : ∀ (fuel : Nat) (data : List Nat),
    data.length ≤ fuel → (chunked32k data).flatten = data := by
  intro fuel
  induction fuel with
  | zero =>
    intro data h
    have : data = [] := List.eq_nil_of_length_eq_zero (Nat.le_zero.mp h)
    simp [this, chunked32k]
  | succ n ih =>
    intro data h
    match data with
    | [] => simp [chunked32k]
    | x :: xs =>
      rw [chunked32k, List.flatten_cons]
      rw [ih ((x :: xs).drop 32768) (by simp [List.length_drop]; simp at h; omega)]
      exact List.take_append_drop _ _

/-- Every chunk of the chunked copy carries at most 32768 bytes. -/
theorem chunked32k_bound_le : ∀ (fuel : Nat) (data : List Nat),
    data.length ≤ fuel → ∀ chunk ∈ chunked32k data, chunk.length ≤ 32768 := by
  intro fuel
  induction fuel with
  | zero =>
    intro data h
    have : data = [] := List.eq_nil_of_length_eq_zero (Nat.le_zero.mp h)
    simp [this, chunked32k]
  | succ n ih =>
    intro data h chunk hc
    match data with
    | [] => simp [chunked32k] at hc
    | x :: xs =>
      rw [chunked32k] at hc
      rcases List.mem_cons.mp hc with h1 | h2
      · rw [h1]; exact List.length_take_le _ _
      · exact ih ((x :: xs).drop 32768)
          (by simp [List.length_drop]; simp at h; omega) chunk h2

/-- Host strings that do carry a port in the spec's sense are recognised by
the code's scan and dialed unchanged. -/
theorem containsPort_of_specHasHostPort (s : String)
    (h : specHasHostPort s = true) : containsPort s = true := by
  simp only [specHasHostPort, Bool.and_eq_true, decide_eq_true_eq,
    Bool.not_eq_true'] at h
  obtain ⟨hcol, ⟨hne, hnb⟩, _⟩ := h
  unfold containsPort
  have hmem : ':' ∈ s.data.reverse := by
    rw [List.mem_reverse]
    exact List.elem_iff.mp (by simpa [List.contains] using hcol)
  set r := s.data.reverse with hr
  set tw := r.takeWhile (fun c => decide (c ≠ ':')) with htw
  set dw := r.dropWhile (fun c => decide (c ≠ ':')) with hdw
  have hsplit : tw ++ dw = r := List.takeWhile_append_dropWhile _ _
  have htw_nocolon : ∀ c ∈ tw, c ≠ ':' := by
    intro c hc
    simpa using List.mem_takeWhile_imp hc
  have hdw_ne : dw ≠ [] := by
    intro h0
    rw [h0, List.append_nil] at hsplit
    exact htw_nocolon ':' (hsplit ▸ hmem) rfl
  obtain ⟨d, dtl, hd⟩ := List.exists_cons_of_ne_nil hdw_ne
  have hdcolon : d = ':' := by
    have := dropWhile_head_false (fun c => decide (c ≠ ':')) r d dtl (hdw ▸ hd)
    simpa using this
  have htw_nobrack : ∀ c ∈ tw, c ≠ ']' := by
    intro c hc he
    have hmem2 : ']' ∈ afterLastColon s.data := by
      unfold afterLastColon
      rw [List.mem_reverse, ← hr]
      exact he ▸ hc
    have : (afterLastColon s.data).contains ']' = true := by
      simp [List.contains, List.elem_iff, hmem2]
    rw [this] at hnb
    cases hnb
  rw [← hsplit, hd, hdcolon]
  exact containsPortAux_colon_block tw dtl (fun c hc => ⟨htw_nocolon c hc, htw_nobrack c hc⟩)

/-- C7 counterexample: the unbracketed IPv6 loopback literal carries no port
(spec reading of "host, optionally host:port"), yet the code's scan finds the
colon inside the address, so the dialed address is the string unchanged, not
the string with ":22" appended as the claim requires. -/
theorem resolveHost_ipv6_counterexample :
    specHasHostPort "::1" = false ∧ resolveHost "::1" = "::1" ∧
      resolveHost "::1" ≠ "::1" ++ ":22" := by
  refine ⟨by decide, by decide, by decide⟩

/-- C7 amended: ":22" is appended exactly when the end-of-string scan finds
no colon before a closing bracket.  This matches the spec's reading on
colon-free host strings (":22" appended), on host:port strings with a
colon-free or bracketed host part (dialed unchanged), and on bracket-final
strings such as a bracketed IPv6 address without a port (":22" appended);
unbracketed IPv6 literals, however, are dialed unchanged with no default
port. -/
theorem resolveHost_defaulting (s : String) :
    (s.data.contains ':' = false → resolveHost s = s ++ ":22") ∧
    (specHasHostPort s = true → resolveHost s = s) ∧
    (s.data.reverse.head? = some ']' → resolveHost s = s ++ ":22") := by
  refine ⟨?_, ?_, ?_⟩
  · intro h
    have hc : containsPort s = false := by
      apply containsPortAux_no_colon
      intro c hc he
      subst he
      have hmem : ':' ∈ s.data := List.mem_reverse.mp hc
      have : s.data.contains ':' = true := by
        simp [List.contains, List.elem_iff, hmem]
      rw [this] at h
      cases h
    simp [resolveHost, hc]
  · intro h
    simp [resolveHost, containsPort_of_specHasHostPort s h]
  · intro h
    have hc : containsPort s = false := by
      unfold containsPort
      cases hr : s.data.reverse with
      | nil => rfl
      | cons c tl =>
        rw [hr] at h
        simp only [List.head?_cons, Option.some_inj] at h
        subst h
        simp [containsPortAux]
    simp [resolveHost, hc]

/-- Closed instance of resolveHost_defaulting: a bare hostname gets the
default port appended, a host:port string and a bracketed IPv6 literal with a
port are dialed unchanged, and a bracketed IPv6 literal without a port gets
":22". -/
theorem resolveHost_defaulting_witness :
    resolveHost "example.com" = "example.com:22" ∧
    resolveHost "host:2222" = "host:2222" ∧
    resolveHost "[::1]:8022" = "[::1]:8022" ∧
    resolveHost "[::1]" = "[::1]" ++ ":22" := by
  refine ⟨(resolveHost_defaulting "example.com").1 (by decide),
    (resolveHost_defaulting "host:2222").2.1 (by decide),
    (resolveHost_defaulting "[::1]:8022").2.1 (by decide),
    (resolveHost_defaulting "[::1]").2.2 (by decide)⟩

/-- Download through downloadFileViaSSH never reports the access-denied
error once the path passed the allow-list check. -/
theorem downloadFileViaSSH_allowed_ne (w : SSHWorld)
    (path host user pw : String) (key : List Nat)
    (hp : pathIsAllowed path = true) :
    (downloadFileViaSSH w path host user pw key).1 ≠
      Except.error accessDeniedMsg := by
  unfold downloadFileViaSSH
  rw [if_neg (by simp [hp])]
  cases hba : buildAuth pw key w.parseKeyOk with
  | error e => simp [accessDeniedMsg]
  | ok a =>
    simp only []
    split
    · simp [accessDeniedMsg]
    · split
      · simp [accessDeniedMsg]
      · split
        · simp [accessDeniedMsg]
        · split
          · simp [accessDeniedMsg]
          · split
            · simp [accessDeniedMsg]
            · split
              · simp [accessDeniedMsg]
              · split
                · simp [accessDeniedMsg]
                · simp

/-- Download through downloadHandler never reports the handler's
access-denied response once the path passed the allow-list check and the
required parameters are present. -/
theorem download_handler_allowed_ne (w : SSHWorld)
    (host user password keyB64 path : String)
    (hh : host ≠ "") (hu : user ≠ "") (hp : path ≠ "")
    (hpa : pathIsAllowed path = true) :
    (downloadHandler w host user password keyB64 path).1 ≠
      HttpResponse.httpError handlerAccessDeniedMsg 403 := by
  unfold downloadHandler
  rw [if_neg (by simp [hh, hu, hp])]
  rw [if_neg (by simp [hpa])]
  cases hk : (if keyB64 ≠ "" then base64Decode keyB64 else some []) with
  | none => simp
  | some privateKey =>
    simp only []
    cases hdl : downloadFileViaSSH w path host user password privateKey with
    | mk res evs =>
      cases res with
      | error e => simp
      | ok f => simp

/-- C1 counterexample: a download request whose path is outside the three
allowed directory trees but whose host parameter is missing is rejected with
the missing-parameters error, not the access-denied error, so rejection with
access-denied does not hold for every request with a disallowed path. -/
theorem download_access_denied_counterexample :
    pathIsAllowed "/etc/passwd" = false ∧
    (downloadHandler wOk "" "user" "" "" "/etc/passwd").1 =
      HttpResponse.httpError "Missing required parameters" 400 ∧
    (downloadHandler wOk "" "user" "" "" "/etc/passwd").1 ≠
      HttpResponse.httpError handlerAccessDeniedMsg 403 := by
  refine ⟨by decide, by decide, by decide⟩

/-- C1 amended: for every download request whose host, user and path
parameters are all present, the request is rejected with the access-denied
error exactly when the path does not start with one of "/home/", "/opt/",
"/tmp/", and such a rejection happens with no dial or any other remote
activity; downloadFileViaSSH itself enforces the same equivalence for every
input, rejecting before any connection event. -/
theorem download_access_control (w : SSHWorld)
    (host user password keyB64 path : String) (key : List Nat)
    (hh : host ≠ "") (hu : user ≠ "") (hp : path ≠ "") :
    ((downloadHandler w host user password keyB64 path).1 =
        HttpResponse.httpError handlerAccessDeniedMsg 403 ↔
      pathIsAllowed path = false) ∧
    (pathIsAllowed path = false →
      (downloadHandler w host user password keyB64 path).2 = []) ∧
    ((downloadFileViaSSH w path host user password key).1 =
        Except.error accessDeniedMsg ↔ pathIsAllowed path = false) ∧
    (pathIsAllowed path = false →
      (downloadFileViaSSH w path host user password key).2 = []) := by
  by_cases hpa : pathIsAllowed path = true
  · have hne1 := download_handler_allowed_ne w host user password keyB64 path hh hu hp hpa
    have hne2 := downloadFileViaSSH_allowed_ne w path host user password key hpa
    refine ⟨⟨fun hc => absurd hc hne1, fun hf => ?_⟩, fun hf => ?_,
      ⟨fun hc => absurd hc hne2, fun hf => ?_⟩, fun hf => ?_⟩
    all_goals rw [hpa] at hf; cases hf
  · have hpf : pathIsAllowed path = false := by
      cases h : pathIsAllowed path
      · rfl
      · exact absurd h hpa
    have hH : downloadHandler w host user password keyB64 path =
        (HttpResponse.httpError handlerAccessDeniedMsg 403, []) := by
      unfold downloadHandler
      rw [if_neg (by simp [hh, hu, hp]), if_pos (by simp [hpf])]
    have hF : downloadFileViaSSH w path host user password key =
        (Except.error accessDeniedMsg, []) := by
      unfold downloadFileViaSSH
      rw [if_pos (by simp [hpf])]
    refine ⟨⟨fun _ => hpf, fun _ => ?_⟩, fun _ => ?_, ⟨fun _ => hpf, fun _ => ?_⟩,
      fun _ => ?_⟩
    all_goals first
      | (rw [hH])
      | (rw [hF])

/-- Closed instance of download_access_control: the request for /etc/passwd
(with all parameters present) is rejected with access-denied and produces no
remote event, and the path /tmp/a.txt passes the check, with the
access-denied outcome impossible for it. -/
theorem download_access_control_witness :
    (downloadHandler wOk "h" "u" "pw" "" "/etc/passwd").1 =
      HttpResponse.httpError handlerAccessDeniedMsg 403 ∧
    (downloadHandler wOk "h" "u" "pw" "" "/etc/passwd").2 = [] ∧
    pathIsAllowed "/tmp/a.txt" = true ∧
    (downloadFileViaSSH wOk "/tmp/a.txt" "h" "u" "pw" []).1 =
      Except.ok "a.txt" := by
  have T := download_access_control wOk "h" "u" "pw" "" "/etc/passwd" []
    (by decide) (by decide) (by decide)
  exact ⟨T.1.mpr (by decide), T.2.1 (by decide), by decide, rfl⟩

/-- C2 (code evidence): the stdout and stderr workers write to the shared
client channel with no serialization (clientWriterSerialized is false,
translated from the absence of any mutex or single-writer in src/ssh.go), so
among the possible network traces of two concurrent WriteMessage calls there
is one in which the stderr worker's frame header lands between the stdout
worker's frame header and payload: framing atomicity fails under that
interleaving. -/
theorem concurrent_writes_can_fragment_frames :
    clientWriterSerialized = false ∧
    [NetChunk.frameHeader 0 1, NetChunk.frameHeader 1 1,
     NetChunk.framePayload 0 [65], NetChunk.framePayload 1 [66]] ∈
      possibleNetTraces (writeMessageSteps 0 [65]) (writeMessageSteps 1 [66]) ∧
    framesIntact [NetChunk.frameHeader 0 1, NetChunk.frameHeader 1 1,
      NetChunk.framePayload 0 [65], NetChunk.framePayload 1 [66]] = false := by
  refine ⟨rfl, ?_, by decide⟩
  simp [possibleNetTraces, clientWriterSerialized, writeMessageSteps, interleavings]

/-- C3 counterexample: a resize control message carrying rows equal to zero
is neither rejected nor clamped: the dispatch issues a window-size-change
request carrying rows equal to zero, which is below one. -/
theorem resize_zero_counterexample :
    dispatchMessage ⟨"resize", "", 80, 0, "", 0⟩ = [Event.windowChange 0 80] ∧
    Event.windowChange 0 80 ∈ dispatchMessage ⟨"resize", "", 80, 0, "", 0⟩ ∧
    ¬ (1 ≤ (0 : Int)) := by
  refine ⟨by decide, by decide, by decide⟩

/-- C3 amended: resize control messages are forwarded to the window-size-
change request with their exact rows and cols values, with no rejection and
no clamping, so non-positive values are issued as-is and terminal geometry
below 1x1 is reachable. -/
theorem resize_forwarded_unaltered (msg : WSMessage) (h : msg.type = "resize") :
    dispatchMessage msg = [Event.windowChange msg.rows msg.cols] := by
  simp [dispatchMessage, h]

/-- Closed instance of resize_forwarded_unaltered at a message carrying a
negative row count: the issued request carries the negative value. -/
theorem resize_forwarded_unaltered_witness :
    dispatchMessage ⟨"resize", "", 120, -5, "", 0⟩ =
      [Event.windowChange (-5) 120] :=
  resize_forwarded_unaltered ⟨"resize", "", 120, -5, "", 0⟩ rfl

/-- C8: every resize control message produces exactly one window-size-change
call, and the call carries exactly the message's rows and cols. -/
theorem resize_exactly_one_call (msg : WSMessage) (h : msg.type = "resize") :
    (dispatchMessage msg).length = 1 ∧
    ∀ e ∈ dispatchMessage msg, e = Event.windowChange msg.rows msg.cols := by
  simp [dispatchMessage, h]

/-- Closed instance of resize_exactly_one_call: a resize message with rows 40
and cols 120 results in exactly one window-size-change carrying (40, 120). -/
theorem resize_exactly_one_call_witness :
    (dispatchMessage ⟨"resize", "", 120, 40, "", 0⟩).length = 1 ∧
    Event.windowChange 40 120 ∈ dispatchMessage ⟨"resize", "", 120, 40, "", 0⟩ := by
  have T := resize_exactly_one_call ⟨"resize", "", 120, 40, "", 0⟩ rfl
  exact ⟨T.1, by decide⟩

/-- C9 counterexample: no configured ceiling bounds the inline upload
payload: for every candidate ceiling there are larger payload sizes still
accepted into memory, because the WebSocket connection has no read limit (the
1024 in the upgrader is an I/O buffer size, not a cap, as the also-accepted
size 1025 shows). -/
theorem inline_upload_no_ceiling :
    wsAcceptsMessage (upgraderReadBufferSize + 1) = true ∧
    ¬ ∃ c : Nat, ∀ n : Nat, n > c → wsAcceptsMessage n = false := by
  refine ⟨rfl, ?_⟩
  rintro ⟨c, h⟩
  have h2 := h (c + 1) (Nat.lt_succ_self c)
  simp [wsAcceptsMessage, wsReadLimit] at h2

/-- C9 amended: inline uploads are accepted into memory whatever their size
(no read limit is configured), while an upload streamed from an HTTP request
body reaches the remote command incrementally, in chunks of at most 32768
bytes that reassemble to exactly the payload. -/
theorem upload_size_model (n : Nat) (data : List Nat) (filename host : String) :
    wsAcceptsMessage n = true ∧
    (∀ chunk ∈ chunked32k data, chunk.length ≤ 32768) ∧
    (chunked32k data).flatten = data ∧
    (uploadFileViaSSH wOk data filename host "u" "" []).2 =
      [Event.dial (resolveHost host), Event.newSession,
       Event.startCommand (uploadCommand filename)] ++
        (chunked32k data).map Event.writeStdin ++ [Event.closeStdin] := by
  refine ⟨rfl, chunked32k_bound_le data.length data (Nat.le_refl _),
    chunked32k_flatten_le data.length data (Nat.le_refl _), ?_⟩
  simp [uploadFileViaSSH, buildAuth, wOk]

/-- Closed instance of upload_size_model: a payload far beyond the 1024-byte
read buffer is still accepted inline, and a small streamed payload reaches the
remote command in chunks that reassemble to it exactly. -/
theorem upload_size_model_witness :
    wsAcceptsMessage 2000000 = true ∧
    (chunked32k [1, 2, 3]).flatten = [1, 2, 3] ∧
    (uploadFileViaSSH wOk [1, 2, 3] "f.bin" "h" "u" "" []).2 =
      [Event.dial (resolveHost "h"), Event.newSession,
       Event.startCommand (uploadCommand "f.bin")] ++
        (chunked32k [1, 2, 3]).map Event.writeStdin ++ [Event.closeStdin] := by
  have T := upload_size_model 2000000 [1, 2, 3] "f.bin" "h"
  exact ⟨T.1, T.2.2.1, T.2.2.2⟩

/-- Upload command target under shell single-quote semantics: for a filename
free of single quotes, the whole staging path sits inside one quoted span, so
the shell redirects to exactly that path. -/
theorem redirectTarget_uploadCommand (f : String) (h : sqc ∉ f.data) :
    redirectTarget (uploadCommand f) = some (remotePathFor f) := by
  have hm : sqc ∉ ("/tmp/" ++ f).data := by
    rw [String.data_append]
    intro hmem
    rcases List.mem_append.mp hmem with h1 | h2
    · revert h1; decide
    · exact h h2
  show (shellWordAux false (sqc :: (("/tmp/" ++ f).data ++ [sqc]))).map
      String.mk = some (remotePathFor f)
  rw [shellWordAux_single_quoted _ hm]
  rfl

/-- C4 counterexample: for the filename a'b'c (which contains single quotes)
the remote command started does not write to the staging path /tmp/a'b'c —
the shell reads its redirection target as /tmp/abc instead, so the
shell-quoting does not make the shell interpret the command as writing to
"/tmp/" followed by the filename for every filename. -/
theorem upload_quoting_counterexample :
    redirectTarget (uploadCommand ("a" ++ sq ++ "b" ++ sq ++ "c")) =
      some "/tmp/abc" ∧
    redirectTarget (uploadCommand ("a" ++ sq ++ "b" ++ sq ++ "c")) ≠
      some (remotePathFor ("a" ++ sq ++ "b" ++ sq ++ "c")) := by
  refine ⟨by decide, by decide⟩

/-- C4 amended: for every inline upload whose filename is free of single
quotes and whose base64 payload decodes to P, the remote command redirects
its input to exactly "/tmp/" followed by the filename, exactly the bytes of P
are written to its input in one write, the input is then closed, and a zero
exit status yields an acknowledgement with success true and that staging
path. -/
theorem upload_stages_payload (w : SSHWorld) (msg : WSMessage) (P : List Nat)
    (hq : sqc ∉ msg.filename.data)
    (hdec : base64Decode msg.data = some P)
    (h1 : w.newSessionOk = true) (h2 : w.stdinPipeOk = true)
    (h3 : w.stderrPipeOk = true) (h4 : w.startOk = true)
    (h5 : w.copyOk = true) (h6 : w.waitExit = 0) :
    redirectTarget (uploadCommand msg.filename) =
      some (remotePathFor msg.filename) ∧
    handleFileUpload w msg =
      (⟨"upload_response", true, remotePathFor msg.filename, ""⟩,
       [Event.newSession, Event.startCommand (uploadCommand msg.filename),
        Event.writeStdin P, Event.closeStdin]) := by
  refine ⟨redirectTarget_uploadCommand msg.filename hq, ?_⟩
  unfold handleFileUpload
  rw [hdec]
  simp [h1, h2, h3, h4, h5, h6]

/-- Closed instance of upload_stages_payload: filename notes.txt with payload
"hello" (base64 aGVsbG8=) stages exactly the five bytes of "hello" at
/tmp/notes.txt and the acknowledgement reports success with that path. -/
theorem upload_stages_payload_witness :
    base64Decode "aGVsbG8=" = some [104, 101, 108, 108, 111] ∧
    remotePathFor "notes.txt" = "/tmp/notes.txt" ∧
    [104, 101, 108, 108, 111].length = 5 ∧
    handleFileUpload wOk ⟨"upload", "aGVsbG8=", 0, 0, "notes.txt", 5⟩ =
      (⟨"upload_response", true, remotePathFor "notes.txt", ""⟩,
       [Event.newSession, Event.startCommand (uploadCommand "notes.txt"),
        Event.writeStdin [104, 101, 108, 108, 111], Event.closeStdin]) := by
  have T := upload_stages_payload wOk ⟨"upload", "aGVsbG8=", 0, 0, "notes.txt", 5⟩
    [104, 101, 108, 108, 111] (by decide) (by decide) rfl rfl rfl rfl rfl rfl
  exact ⟨by decide, by decide, by decide, T.2⟩

/-- C5: every decoding failure, whatever its cause (missing or invalid key,
failed verification, bad base64, malformed payload), yields the same generic
"Invalid access token" response to the client; a successful decode yields a
bundle holding exactly the user, host and optional private key extracted from
the flat key-value payload (and nothing else — the password field stays
empty); decryptAccess itself is a pure function of the token and the
key-check and verification outcomes, modelled with no state. -/
theorem token_codec_uniform_error (verify : String → Option String)
    (kc kv : Bool) (a : String) (ha : a ≠ "") :
    (∀ e, decryptAccess verify kc kv a = Except.error e →
      indexHandler verify kc kv a =
        HttpResponse.httpError "Invalid access token" 400) ∧
    (∀ tok64 bytes vs, kc = true → kv = true → verify a = some tok64 →
      base64Decode tok64 = some bytes →
      parseQuery (String.mk (bytes.map Char.ofNat)) = Except.ok vs →
      decryptAccess verify kc kv a =
        Except.ok ⟨valuesGet vs "hostname", valuesGet vs "username", "",
                   valuesGet vs "privatekey"⟩ ∧
      indexHandler verify kc kv a =
        HttpResponse.page "terminal.html"
          ⟨valuesGet vs "hostname", valuesGet vs "username", "",
           valuesGet vs "privatekey"⟩) := by
  constructor
  · intro e he
    unfold indexHandler
    rw [if_pos ha, he]
  · intro tok64 bytes vs hkc hkv hv hb hp
    subst hkc
    subst hkv
    have hd : decryptAccess verify true true a =
        Except.ok ⟨valuesGet vs "hostname", valuesGet vs "username", "",
                   valuesGet vs "privatekey"⟩ := by
      unfold decryptAccess
      simp only [hv, hb, hp]
      simp
    refine ⟨hd, ?_⟩
    unfold indexHandler
    rw [if_pos ha, hd]

/-- Closed instance of token_codec_uniform_error: two different failure modes
(verification failure, and bad base64 inside a verified token) yield the very
same client response, and a well-formed token decodes to exactly the
username/hostname fields of its payload with an empty password. -/
theorem token_codec_uniform_error_witness :
    indexHandler (fun _ => none) true true "tok" =
      HttpResponse.httpError "Invalid access token" 400 ∧
    indexHandler (fun _ => some "!!!") true true "tok" =
      HttpResponse.httpError "Invalid access token" 400 ∧
    decryptAccess (fun _ => some "dXNlcm5hbWU9YWxpY2UmaG9zdG5hbWU9aDE=")
        true true "tok" = Except.ok ⟨"h1", "alice", "", ""⟩ := by
  have T1 := (token_codec_uniform_error (fun _ => none) true true "tok"
    (by decide)).1 "failed to decrypt access token" rfl
  have T2 := (token_codec_uniform_error (fun _ => some "!!!") true true "tok"
    (by decide)).1 "illegal base64 data" rfl
  have T3 := ((token_codec_uniform_error
      (fun _ => some "dXNlcm5hbWU9YWxpY2UmaG9zdG5hbWU9aDE=") true true "tok"
      (by decide)).2 "dXNlcm5hbWU9YWxpY2UmaG9zdG5hbWU9aDE="
      ("username=alice&hostname=h1".data.map Char.toNat)
      [("username", "alice"), ("hostname", "h1")]
      rfl rfl rfl (by decide) (by rfl)).1
  refine ⟨T1, T2, ?_⟩
  rw [T3]
  rfl

/-- C6: the authentication method list is ordered with the password method
first whenever a non-empty password is supplied, followed by the key method
whenever key bytes are supplied; and when key bytes are present but do not
parse, the attempt fails with the key-parse error before any dial, with no
method list produced. -/
theorem auth_order_and_parse_failure (w : SSHWorld) (pw : String)
    (key : List Nat) :
    (∀ auth, buildAuth pw key w.parseKeyOk = Except.ok auth →
      auth = (if pw ≠ "" then [AuthMethod.password pw] else []) ++
             (if key.length > 0 then [AuthMethod.publicKey] else []) ∧
      (pw ≠ "" → auth.head? = some (AuthMethod.password pw))) ∧
    (key.length > 0 → w.parseKeyOk = false →
      buildAuth pw key w.parseKeyOk =
        Except.error "failed to parse private key" ∧
      (∀ host user frames a,
        Event.dial a ∉ handleSSHConnection w host user pw key frames) ∧
      (∀ fileBytes filename host user a,
        (uploadFileViaSSH w fileBytes filename host user pw key).1 =
          Except.error "failed to parse private key" ∧
        Event.dial a ∉ (uploadFileViaSSH w fileBytes filename host user pw key).2)) := by
  constructor
  · intro auth hok
    unfold buildAuth at hok
    by_cases hk : key.length > 0
    · rw [if_pos hk] at hok
      cases hpk : w.parseKeyOk
      · rw [hpk] at hok
        simp at hok
      · rw [hpk] at hok
        simp only [if_pos] at hok
        injection hok with hok
        subst hok
        rw [if_pos hk]
        refine ⟨rfl, fun hpw => ?_⟩
        rw [if_pos hpw]
        rfl
    · rw [if_neg hk] at hok
      injection hok with hok
      subst hok
      rw [if_neg hk, List.append_nil]
      refine ⟨rfl, fun hpw => ?_⟩
      rw [if_pos hpw]
      rfl
  · intro hk hpk
    have hba : buildAuth pw key w.parseKeyOk =
        Except.error "failed to parse private key" := by
      unfold buildAuth
      rw [if_pos hk, hpk]
      simp
    refine ⟨hba, ?_, ?_⟩
    · intro host user frames a hmem
      unfold handleSSHConnection at hmem
      rw [hba] at hmem
      simp at hmem
    · intro fileBytes filename host user a
      unfold uploadFileViaSSH
      rw [hba]
      exact ⟨rfl, by simp⟩

/-- Closed instance of auth_order_and_parse_failure: with password "pw" and a
one-byte key that parses, the method list is password first then public key;
with a key that does not parse, the build fails with the key-parse error and
no dial event occurs in a session attempt. -/
theorem auth_order_witness :
    buildAuth "pw" [1] true = Except.ok
      [AuthMethod.password "pw", AuthMethod.publicKey] ∧
    [AuthMethod.password "pw", AuthMethod.publicKey].head? =
      some (AuthMethod.password "pw") ∧
    buildAuth "pw" [1] false = Except.error "failed to parse private key" ∧
    handleSSHConnection
      ⟨false, true, true, true, true, true, true, true, true, true, 0⟩
      "h" "u" "pw" [1] [] = [Event.wsText "Error: Failed to parse private key"] := by
  have T1 := (auth_order_and_parse_failure wOk "pw" [1]).1
    [AuthMethod.password "pw", AuthMethod.publicKey] rfl
  have T2 := (auth_order_and_parse_failure
    ⟨false, true, true, true, true, true, true, true, true, true, 0⟩
    "pw" [1]).2 (by decide) rfl
  refine ⟨rfl, T1.2 (by decide), T2.1, ?_⟩
  unfold handleSSHConnection
  rw [T2.1]

/-- C10: a credential bundle produced by a successful token decode always has
an empty password, and the authentication method list built from it can
contain only the public-key method — never a password method — so a session
bootstrapped from a token can only authenticate by private key. -/
theorem token_creds_no_password (verify : String → Option String)
    (kc kv : Bool) (a : String) :
    ∀ creds, decryptAccess verify kc kv a = Except.ok creds →
      creds.password = "" ∧
      (∀ key pOk auth, buildAuth creds.password key pOk = Except.ok auth →
        ∀ m ∈ auth, m = AuthMethod.publicKey) := by
  intro creds h
  unfold decryptAccess at h
  by_cases h1 : kc = false
  · rw [if_pos h1] at h; cases h
  · rw [if_neg h1] at h
    by_cases h2 : kv = false
    · rw [if_pos h2] at h; cases h
    · rw [if_neg h2] at h
      cases hv : verify a with
      | none => rw [hv] at h; cases h
      | some tok =>
        simp only [hv] at h
        cases hb : base64Decode tok with
        | none => rw [hb] at h; cases h
        | some bytes =>
          simp only [hb] at h
          cases hp : parseQuery (String.mk (bytes.map Char.ofNat)) with
          | error e => rw [hp] at h; cases h
          | ok vs =>
            simp only [hp] at h
            injection h with h
            subst h
            refine ⟨rfl, ?_⟩
            intro key pOk auth hok m hm
            unfold buildAuth at hok
            simp only [ne_eq, not_true_eq_false, if_neg, not_false_eq_true,
              List.nil_append] at hok
            by_cases hk : key.length > 0
            · rw [if_pos hk] at hok
              cases hpk : pOk
              · rw [hpk] at hok; simp at hok
              · rw [hpk] at hok
                simp only [if_pos] at hok
                injection hok with hok
                subst hok
                simp at hm
                exact hm
            · rw [if_neg hk] at hok
              injection hok with hok
              subst hok
              simp at hm

/-- Closed instance of token_creds_no_password: a token whose payload is
empty decodes to a bundle with an empty password, and an auth list built from
that bundle holds only the public-key method. -/
theorem token_creds_no_password_witness :
    decryptAccess (fun _ => some "") true true "t" =
      Except.ok ⟨"", "", "", ""⟩ ∧
    (⟨"", "", "", ""⟩ : SSHCredentials).password = "" ∧
    AuthMethod.publicKey = AuthMethod.publicKey := by
  have T := token_creds_no_password (fun _ => some "") true true "t"
    ⟨"", "", "", ""⟩ rfl
  exact ⟨rfl, T.1, T.2 [1] true [AuthMethod.publicKey] rfl
    AuthMethod.publicKey (by decide)⟩

end GoSSH
